import Mathlib

/-!
# tpm2-pkcs11 `src/lib/utils.h`: a shallow embedding and its properties

The header `utils.h` carries three pieces of code with a body
(`str_padded_copy`, `utils_new_random_object_auth` and the converter generated
by `UTILS_GENERIC_ATTR_TYPE_CONVERT`) and one constant (`SALT_HEX_STR_SIZE`).
They are embedded from the C text.  The remaining functions are only declared
there; where a property concerns one of them, its definition is modelled from
the specification and marked as such in its doc comment.

Conventions: a byte is a `Nat`; a C memory region reached through a pointer is
a function `Nat → Nat` from byte offset to byte; `CK_RV`, `CK_ULONG` and
`size_t` values are `Nat`.
-/

namespace Tpm2Pkcs11

/-! ## Constants -/

/-- `#define SALT_HEX_STR_SIZE 64` (utils.h, line 17). -/
def SALT_HEX_STR_SIZE : Nat := 64

/-- Number of hexadecimal characters that encode one byte. -/
def HEX_CHARS_PER_BYTE : Nat := 2

/-- Number of bits carried by one hexadecimal character. -/
def BITS_PER_HEX_CHAR : Nat := 4

/-- Number of bits in one byte. -/
def BITS_PER_BYTE : Nat := 8

/-- PKCS#11 status `CKR_OK` (pkcs11.h). -/
def CKR_OK : Nat := 0x00000000

/-- PKCS#11 status `CKR_HOST_MEMORY` (pkcs11.h). -/
def CKR_HOST_MEMORY : Nat := 0x00000002

/-- PKCS#11 status `CKR_ATTRIBUTE_TYPE_INVALID` (pkcs11.h). -/
def CKR_ATTRIBUTE_TYPE_INVALID : Nat := 0x00000012

/-- PKCS#11 status `CKR_ATTRIBUTE_VALUE_INVALID` (pkcs11.h). -/
def CKR_ATTRIBUTE_VALUE_INVALID : Nat := 0x00000013

/-- A region of C memory seen from a pointer: byte offset to byte value. -/
abbrev Mem := Nat → Nat

/-- C `memset(dst, c, n)`: the first `n` bytes become `(unsigned char) c`. -/
def memset (dst : Mem) (c : Nat) (n : Nat) : Mem :=
  fun i => if i < n then c % 256 else dst i

/-- C `memcpy(dst, src, n)` on regions that do not overlap. -/
def memcpy (dst src : Mem) (n : Nat) : Mem :=
  fun i => if i < n then src i else dst i

/-- The scan of `strnlen`: `pos` bytes were seen without a NUL and `n` more
may be inspected. -/
def strnlen_scan (s : Mem) : Nat → Nat → Nat
  | pos, 0 => pos
  | pos, n + 1 => if s pos = 0 then pos else strnlen_scan s (pos + 1) n

/-- C `strnlen(s, maxlen)`: the number of bytes before the first NUL among the
first `maxlen` bytes of `s`, and `maxlen` when there is none. -/
def strnlen (s : Mem) (maxlen : Nat) : Nat :=
  strnlen_scan s 0 maxlen

/-- The body of `str_padded_copy`:
`memset(dst, ' ', dst_len); memcpy(dst, src, strnlen((char *)(src), dst_len));`
The regions `dst` and `src` do not overlap (as `memcpy` requires); the result
is the region `dst` after the call. -/
def str_padded_copy (dst src : Mem) (dst_len : Nat) : Mem :=
  memcpy (memset dst 0x20 dst_len) src (strnlen src dst_len)

/-- The index `n` is the position of the first NUL byte among the first `len`
bytes of `s`, or `len` when these bytes hold no NUL. -/
def first_nul_index (s : Mem) (len n : Nat) : Prop :=
  n ≤ len ∧ (∀ i, i < n → s i ≠ 0) ∧ (n < len → s n = 0)

/-- A sample source region: the string "ab" followed by NUL bytes. -/
def sample_src : Mem := fun i => if i = 0 then 0x61 else if i = 1 then 0x62 else 0

/-- A sample destination region filled with the byte 0xFF. -/
def sample_dst : Mem := fun _ => 0xFF

/-! ## Attributes and the generated converters (utils.h, lines 121-131) -/

/-- A binary string as `twist` holds it: its bytes. -/
abbrev twist := List Nat

/-- PKCS#11 `CK_ATTRIBUTE`: `type`, `pValue` (absent for a NULL pointer, else
the bytes of the buffer it addresses) and `ulValueLen`. -/
structure CK_ATTRIBUTE where
  type : Nat
  pValue : Option (List Nat)
  ulValueLen : Nat
deriving DecidableEq, Repr

/-- What the converter macro needs of a C object type `T`: `sizeof(T)` and the
value of type `T` that `sizeof(T)` bytes of memory represent. -/
structure CObjType (T : Type) where
  sizeof : Nat
  load : List Nat → T

/-- Little-endian value of a byte string. -/
def le_value : List Nat → Nat
  | [] => 0
  | b :: bs => b % 256 + 256 * le_value bs

/-- `CK_ULONG` on an LP64 target: eight bytes, little-endian. -/
def ck_ulong_type : CObjType Nat := ⟨8, le_value⟩

/-- `CK_BBOOL`: one byte. -/
def ck_bbool_type : CObjType Nat := ⟨1, le_value⟩

/-- The C read `*(T *)p`: defined when `p` is not NULL and addresses at least
`sizeof(T)` bytes; `none` stands for a read that C leaves undefined. -/
def deref {T : Type} (ct : CObjType T) (p : Option (List Nat)) : Option T :=
  match p with
  | none => none
  | some buf => if ct.sizeof ≤ buf.length then some (ct.load (buf.take ct.sizeof)) else none

/-- The function `generic_T` generated by `UTILS_GENERIC_ATTR_TYPE_CONVERT(T)`:
`if (attr->ulValueLen != sizeof(*x)) return CKR_ATTRIBUTE_VALUE_INVALID;`
then `*x = *(T *)attr->pValue; return CKR_OK;`.
The argument `x` is the content of `*x` before the call; the result is the
returned status with the content of `*x` after the call. -/
def generic_convert {T : Type} (ct : CObjType T) (attr : CK_ATTRIBUTE) (x : T) :
    Option (Nat × T) :=
  if attr.ulValueLen ≠ ct.sizeof then
    some (CKR_ATTRIBUTE_VALUE_INVALID, x)
  else
    match deref ct attr.pValue with
    | none => none
    | some v => some (CKR_OK, v)

/-! ## `utils_new_random_object_auth` (utils.h, lines 84-88) -/

/-- The shape of `utils_setup_new_object_auth(newpin, newauthhex, newsalthex)`,
declared in utils.h with its body elsewhere: a PIN that may be NULL, two output
handles (addresses), and the state of the world (RNG, memory) it runs in; it
returns a status and the new state. -/
abbrev SetupNewObjectAuth (ω : Type) := Option twist → Nat → Nat → ω → Nat × ω

/-- The body of `utils_new_random_object_auth`:
`return utils_setup_new_object_auth(NULL, newauthbin, newauthhex);`
with the callee taken as a parameter. -/
def utils_new_random_object_auth {ω : Type} (utils_setup_new_object_auth : SetupNewObjectAuth ω)
    (newauthbin newauthhex : Nat) (w : ω) : Nat × ω :=
  utils_setup_new_object_auth none newauthbin newauthhex w

/-- A sample callee for `utils_new_random_object_auth`: the world is a counter
of RNG draws and a table of written handles; a NULL PIN draws twice. -/
def sample_setup : SetupNewObjectAuth (Nat × List (Nat × Nat)) :=
  fun pin a b w =>
    match pin with
    | none => (CKR_OK, (w.1 + 2, (a, w.1) :: (b, w.1 + 1) :: w.2))
    | some p => (CKR_OK, (w.1 + 1, (a, p.length) :: (b, w.1) :: w.2))

/-! ## Attribute handler dispatch (utils.h, lines 95-103) -/

/-- The type of the `handler` member of `struct attr_handler`:
`CK_RV (*handler)(CK_ATTRIBUTE_PTR attr, CK_ULONG count, void *userdat)`,
with the user data threaded through as a state. -/
abbrev AttrHandlerFn (σ : Type) := CK_ATTRIBUTE → Nat → σ → Nat × σ

/-- The `struct attr_handler`: the attribute type `value` and the `handler`,
which is `none` for `ATTR_HANDLER_IGNORE` (NULL). -/
structure attr_handler (σ : Type) where
  value : Nat
  handler : Option (AttrHandlerFn σ)

/-- Outcome of a dispatch: the returned status, the user data after the call,
and the indices of the entries whose handler was invoked, in invocation
order. -/
structure HandleResult (σ : Type) where
  rv : Nat
  udata : σ
  calls : List Nat

/-- Modelled from the spec: the lookup inside `utils_handle_attrs` (its body
is not in utils.h). Section 4.4: linear lookup of the entry's type in the
table; the first row whose `value` equals the type is the match. -/
def attr_lookup {σ : Type} (handlers : List (attr_handler σ)) (t : Nat) :
    Option (attr_handler σ) :=
  handlers.find? (fun h => h.value == t)

/-- Modelled from the spec: the loop of `utils_handle_attrs` (its body is not
in utils.h). Section 4.4, for each entry in array order: no match gives
`CKR_ATTRIBUTE_TYPE_INVALID`; a match with the ignore marker skips the entry; a
match with a handler invokes `handler(entry, total_count, user_context)`, and a
status other than `CKR_OK` ends the dispatch and is returned unchanged. The
argument `i` is the index of the head entry and `calls` records the invocations
made so far. -/
def handle_attrs_loop {σ : Type} (handlers : List (attr_handler σ)) (attr_count : Nat) :
    List CK_ATTRIBUTE → Nat → σ → List Nat → HandleResult σ
  | [], _, udata, calls => ⟨CKR_OK, udata, calls⟩
  | a :: rest, i, udata, calls =>
    match attr_lookup handlers a.type with
    | none => ⟨CKR_ATTRIBUTE_TYPE_INVALID, udata, calls⟩
    | some h =>
      match h.handler with
      | none => handle_attrs_loop handlers attr_count rest (i + 1) udata calls
      | some f =>
        if (f a attr_count udata).1 ≠ CKR_OK then
          ⟨(f a attr_count udata).1, (f a attr_count udata).2, calls ++ [i]⟩
        else
          handle_attrs_loop handlers attr_count rest (i + 1) (f a attr_count udata).2
            (calls ++ [i])

/-- Modelled from the spec: `utils_handle_attrs(handlers, handler_count, attrs,
attr_count, udata)` (declared in utils.h, body elsewhere), section 4.4. The
table and the array are lists, so the two counts are their lengths. -/
def utils_handle_attrs {σ : Type} (handlers : List (attr_handler σ))
    (attrs : List CK_ATTRIBUTE) (udata : σ) : HandleResult σ :=
  handle_attrs_loop handlers attrs.length attrs 0 udata []

/-- A counting stub handler returning the fixed status `rv`: the user data is
the number of invocations. -/
def counting_stub (rv : Nat) : AttrHandlerFn Nat := fun _ _ n => (rv, n + 1)

/-- PKCS#11 attribute type `CKA_CLASS` (pkcs11.h). -/
def CKA_CLASS : Nat := 0x00000000

/-- PKCS#11 attribute type `CKA_VALUE` (pkcs11.h). -/
def CKA_VALUE : Nat := 0x00000011

/-- PKCS#11 status `CKR_DEVICE_ERROR` (pkcs11.h). -/
def CKR_DEVICE_ERROR : Nat := 0x00000030

/-- A table with a single row: a stub for `CKA_VALUE` that fails with
`CKR_DEVICE_ERROR`. -/
def sample_table_value_fails : List (attr_handler Nat) :=
  [⟨CKA_VALUE, some (counting_stub CKR_DEVICE_ERROR)⟩]

/-- A template with a `CKA_CLASS` entry followed by a `CKA_VALUE` entry. -/
def sample_template_class_value : List CK_ATTRIBUTE :=
  [⟨CKA_CLASS, some [4, 0, 0, 0, 0, 0, 0, 0], 8⟩, ⟨CKA_VALUE, none, 0⟩]

/-- The allocator as the copy sees it: `budget` further requests succeed and
the next one fails; `allocs` counts the buffers handed out so far and `live`
those not yet released. -/
structure Heap where
  budget : Nat
  allocs : Nat
  live : Nat
deriving DecidableEq, Repr

/-- The helper `buf_dup(buf, len)` of utils.h: "NULL on oom, pointer to a copy
on success". -/
def buf_dup (heap : Heap) (buf : List Nat) (len : Nat) : Option (List Nat) × Heap :=
  match heap.budget with
  | 0 => (none, heap)
  | b + 1 => (some (buf.take len), ⟨b, heap.allocs + 1, heap.live + 1⟩)

/-- Modelled from the spec: the copy of one entry inside `utils_attr_deep_copy`
(its body is not in utils.h). Section 4.2: if the value is present (length
greater than 0 and pointer not NULL) the byte buffer is duplicated into newly
owned storage; if absent, the entry is copied verbatim without allocating. -/
def attr_copy_entry (heap : Heap) (a : CK_ATTRIBUTE) : Option CK_ATTRIBUTE × Heap :=
  match a.pValue with
  | some buf =>
    if 0 < a.ulValueLen then
      match buf_dup heap buf a.ulValueLen with
      | (none, heap1) => (none, heap1)
      | (some copy, heap1) => (some ⟨a.type, some copy, a.ulValueLen⟩, heap1)
    else (some a, heap)
  | none => (some a, heap)

/-- Modelled from the spec: the release of one copied entry (section 4.2): an
owned value buffer is released, a sentinel entry owns nothing. -/
def attr_release_entry (heap : Heap) (a : CK_ATTRIBUTE) : Heap :=
  match a.pValue with
  | some _ => if 0 < a.ulValueLen then ⟨heap.budget, heap.allocs, heap.live - 1⟩ else heap
  | none => heap

/-- Modelled from the spec: the loop of `utils_attr_deep_copy` (its body is not
in utils.h). Section 4.2: entries are copied in order; when one duplication
fails, the entries copied so far are released and no array is returned. -/
def attr_copy_entries : Heap → List CK_ATTRIBUTE → Option (List CK_ATTRIBUTE) × Heap
  | heap, [] => (some [], heap)
  | heap, a :: rest =>
    match attr_copy_entry heap a with
    | (none, heap1) => (none, heap1)
    | (some a1, heap1) =>
      match attr_copy_entries heap1 rest with
      | (none, heap2) => (none, attr_release_entry heap2 a1)
      | (some rest1, heap2) => (some (a1 :: rest1), heap2)

/-- Modelled from the spec: `utils_attr_deep_copy(attrs, attr_count, copy)`
(declared in utils.h, body elsewhere), section 4.2. The result is the status,
the content of the array `copy` on success, and the allocator afterwards; the
spec's `AllocationFailed` is the PKCS#11 status `CKR_HOST_MEMORY`. -/
def utils_attr_deep_copy (heap : Heap) (attrs : List CK_ATTRIBUTE) :
    Nat × Option (List CK_ATTRIBUTE) × Heap :=
  match attr_copy_entries heap attrs with
  | (none, heap1) => (CKR_HOST_MEMORY, none, heap1)
  | (some copy, heap1) => (CKR_OK, some copy, heap1)

/-- A sentinel entry: length 0 and value absent. -/
def is_sentinel (a : CK_ATTRIBUTE) : Prop :=
  a.ulValueLen = 0 ∧ a.pValue = none

/-! ## Object authorization wrapping (utils.h, lines 34-36 and 90-93) -/

/-- A sample array of two sentinel entries. -/
def sample_sentinels : List CK_ATTRIBUTE := [⟨CKA_VALUE, none, 0⟩, ⟨CKA_CLASS, none, 0⟩]

/-! ### Lemmas on `strnlen` -/

theorem strnlen_scan_ge (s : Mem) (n pos : Nat) : pos ≤ strnlen_scan s pos n := by
  induction n generalizing pos with
  | zero => simp [strnlen_scan]
  | succ n ih =>
    unfold strnlen_scan
    split
    · exact le_refl _
    · exact le_trans (Nat.le_succ pos) (ih (pos + 1))

theorem strnlen_scan_le (s : Mem) (n pos : Nat) : strnlen_scan s pos n ≤ pos + n := by
  induction n generalizing pos with
  | zero => simp [strnlen_scan]
  | succ n ih =>
    unfold strnlen_scan
    split
    · omega
    · have := ih (pos + 1); omega

theorem strnlen_scan_nonzero (s : Mem) (n pos i : Nat)
    (h1 : pos ≤ i) (h2 : i < strnlen_scan s pos n) : s i ≠ 0 := by
  induction n generalizing pos with
  | zero => simp [strnlen_scan] at h2; omega
  | succ n ih =>
    unfold strnlen_scan at h2
    split at h2
    · omega
    · rename_i hne
      by_cases hi : i = pos
      · subst hi; exact hne
      · exact ih (pos + 1) (by omega) h2

theorem strnlen_scan_stop (s : Mem) (n pos : Nat)
    (h : strnlen_scan s pos n < pos + n) : s (strnlen_scan s pos n) = 0 := by
  induction n generalizing pos with
  | zero => simp [strnlen_scan] at h
  | succ n ih =>
    unfold strnlen_scan at h ⊢
    split
    · assumption
    · rename_i hne
      simp only [hne, if_false] at h
      exact ih (pos + 1) (by omega)

theorem strnlen_first_nul (s : Mem) (len : Nat) : first_nul_index s len (strnlen s len) := by
  refine ⟨?_, ?_, ?_⟩
  · have := strnlen_scan_le s len 0; simpa [strnlen] using this
  · intro i hi
    exact strnlen_scan_nonzero s len 0 i (Nat.zero_le _) hi
  · intro h
    exact strnlen_scan_stop s len 0 (by simpa [strnlen] using h)

theorem first_nul_index_unique (s : Mem) (len n m : Nat)
    (hn : first_nul_index s len n) (hm : first_nul_index s len m) : n = m := by
  obtain ⟨hn1, hn2, hn3⟩ := hn
  obtain ⟨hm1, hm2, hm3⟩ := hm
  rcases Nat.lt_trichotomy n m with h | h | h
  · exact absurd (hn3 (by omega)) (hm2 n h)
  · exact h
  · exact absurd (hm3 (by omega)) (hn2 m h)

theorem strnlen_congr (s t : Mem) (len : Nat) (h : ∀ i, i < len → s i = t i) :
    strnlen s len = strnlen t len := by
  apply first_nul_index_unique t len
  · obtain ⟨h1, h2, h3⟩ := strnlen_first_nul s len
    refine ⟨h1, ?_, ?_⟩
    · intro i hi; rw [← h i (by omega)]; exact h2 i hi
    · intro hlt; rw [← h _ hlt]; exact h3 hlt
  · exact strnlen_first_nul t len

theorem strnlen_eq_of_no_nul (s : Mem) (len : Nat) (h : ∀ i, i < len → s i ≠ 0) :
    strnlen s len = len := by
  apply first_nul_index_unique s len
  · exact strnlen_first_nul s len
  · exact ⟨le_refl _, h, fun hlt => absurd hlt (lt_irrefl _)⟩

/-- Every byte of the field written by `str_padded_copy` is different from NUL. -/
theorem str_padded_copy_nonzero (dst src : Mem) (dst_len i : Nat) (hi : i < dst_len) :
    str_padded_copy dst src dst_len i ≠ 0 := by
  unfold str_padded_copy memcpy memset
  by_cases h : i < strnlen src dst_len
  · simp only [h, if_true]
    exact (strnlen_first_nul src dst_len).2.1 i h
  · simp [h, hi]

/-! ## Properties of `SALT_HEX_STR_SIZE` -/

/-- C7: `SALT_HEX_STR_SIZE` is exactly 64, and 64 hexadecimal characters, at 2
characters per byte and 4 bits per character, stand for exactly 32 bytes, that
is 256 bits, of salt. -/
theorem salt_hex_str_size_is_64 :
    SALT_HEX_STR_SIZE = 64 ∧
    SALT_HEX_STR_SIZE = 32 * HEX_CHARS_PER_BYTE ∧
    SALT_HEX_STR_SIZE / HEX_CHARS_PER_BYTE = 32 ∧
    SALT_HEX_STR_SIZE * BITS_PER_HEX_CHAR = 256 ∧
    (SALT_HEX_STR_SIZE / HEX_CHARS_PER_BYTE) * BITS_PER_BYTE = 256 := by
  decide

/-! ## Properties of `str_padded_copy` -/

/-- C8: `str_padded_copy` pads and truncates. With `n` the index of the first
NUL among the first `dst_len` bytes of `src` (`dst_len` when there is none),
the field holds `src[i]` for `i < n` and a blank (0x20) for `n <= i < dst_len`;
the bytes of `dst` from `dst_len` on keep their content and the first `dst_len`
bytes do not depend on the old content (exactly `dst_len` bytes are written);
the result depends on the first `dst_len` bytes of `src` only (at most
`dst_len` bytes are read). -/
theorem str_padded_copy_pad_truncate (dst src : Mem) (dst_len n : Nat)
    (hn : first_nul_index src dst_len n) :
    (∀ i, i < n → str_padded_copy dst src dst_len i = src i) ∧
    (∀ i, n ≤ i → i < dst_len → str_padded_copy dst src dst_len i = 0x20) ∧
    (∀ i, dst_len ≤ i → str_padded_copy dst src dst_len i = dst i) ∧
    (∀ (dst2 : Mem) i, i < dst_len →
      str_padded_copy dst2 src dst_len i = str_padded_copy dst src dst_len i) ∧
    (∀ src2 : Mem, (∀ i, i < dst_len → src2 i = src i) →
      str_padded_copy dst src2 dst_len = str_padded_copy dst src dst_len) := by
  have hlen : strnlen src dst_len = n :=
    first_nul_index_unique src dst_len _ _ (strnlen_first_nul src dst_len) hn
  have hle : n ≤ dst_len := hn.1
  refine ⟨?_, ?_, ?_, ?_, ?_⟩
  · intro i hi
    simp [str_padded_copy, memcpy, hlen, hi]
  · intro i h1 h2
    have h3 : ¬ i < n := by omega
    simp [str_padded_copy, memcpy, memset, hlen, h3, h2]
  · intro i h1
    have h3 : ¬ i < n := by omega
    have h4 : ¬ i < dst_len := by omega
    simp [str_padded_copy, memcpy, memset, hlen, h3, h4]
  · intro dst2 i hi
    by_cases h : i < n
    · simp [str_padded_copy, memcpy, hlen, h]
    · simp [str_padded_copy, memcpy, memset, hlen, h, hi]
  · intro src2 h
    have hlen2 : strnlen src2 dst_len = n := by
      rw [strnlen_congr src2 src dst_len h]; exact hlen
    funext i
    by_cases hi : i < n
    · simp [str_padded_copy, memcpy, hlen, hlen2, hi, h i (by omega)]
    · simp [str_padded_copy, memcpy, hlen, hlen2, hi]

/-- Witness of C8: the string "ab" copied into a field of width 4 that held
0xFF bytes; the first NUL of the source is at index 2. -/
theorem str_padded_copy_pad_truncate_witness :
    first_nul_index sample_src 4 2 ∧
    ((∀ i, i < 2 → str_padded_copy sample_dst sample_src 4 i = sample_src i) ∧
    (∀ i, 2 ≤ i → i < 4 → str_padded_copy sample_dst sample_src 4 i = 0x20) ∧
    (∀ i, 4 ≤ i → str_padded_copy sample_dst sample_src 4 i = sample_dst i) ∧
    (∀ (dst2 : Mem) i, i < 4 →
      str_padded_copy dst2 sample_src 4 i = str_padded_copy sample_dst sample_src 4 i) ∧
    (∀ src2 : Mem, (∀ i, i < 4 → src2 i = sample_src i) →
      str_padded_copy sample_dst src2 4 = str_padded_copy sample_dst sample_src 4)) :=
  have h : first_nul_index sample_src 4 2 :=
    ⟨by decide, fun i hi => by interval_cases i <;> simp [sample_src],
      fun _ => by simp [sample_src]⟩
  ⟨h, str_padded_copy_pad_truncate sample_dst sample_src 4 2 h⟩

/-- C10: the `dst_len` bytes produced by `str_padded_copy` hold no NUL byte,
and applying `str_padded_copy` with the same width to its own output gives the
same `dst_len` bytes. -/
theorem str_padded_copy_no_nul_idempotent (dst dst2 src : Mem) (dst_len : Nat) :
    (∀ i, i < dst_len → str_padded_copy dst src dst_len i ≠ 0) ∧
    (∀ i, i < dst_len →
      str_padded_copy dst2 (str_padded_copy dst src dst_len) dst_len i
        = str_padded_copy dst src dst_len i) := by
  refine ⟨fun i hi => str_padded_copy_nonzero dst src dst_len i hi, ?_⟩
  intro i hi
  have hfull : strnlen (str_padded_copy dst src dst_len) dst_len = dst_len :=
    strnlen_eq_of_no_nul _ _ (fun j hj => str_padded_copy_nonzero dst src dst_len j hj)
  show memcpy (memset dst2 0x20 dst_len) (str_padded_copy dst src dst_len)
      (strnlen (str_padded_copy dst src dst_len) dst_len) i = _
  rw [hfull]
  simp [memcpy, hi]

/-! ## Properties of the generated converters -/

/-- C9 as stated fails: on an attribute whose `ulValueLen` equals
`sizeof(CK_ULONG)` and whose `pValue` is NULL, the converter reads through the
NULL pointer; it returns neither `CKR_OK` nor any other status. -/
theorem generic_convert_null_counterexample :
    (⟨CKA_CLASS, none, 8⟩ : CK_ATTRIBUTE).ulValueLen = ck_ulong_type.sizeof ∧
    generic_convert ck_ulong_type ⟨CKA_CLASS, none, 8⟩ 7 = none ∧
    ¬ ∃ y, generic_convert ck_ulong_type ⟨CKA_CLASS, none, 8⟩ 7 = some (CKR_OK, y) := by
  refine ⟨rfl, rfl, ?_⟩
  rintro ⟨y, hy⟩
  have h : generic_convert ck_ulong_type ⟨CKA_CLASS, none, 8⟩ 7 = none := rfl
  rw [h] at hy
  exact Option.noConfusion hy

/-- C9 (amended): for an attribute whose `pValue`, when `ulValueLen` equals
`sizeof(T)`, is not NULL and addresses at least `sizeof(T)` bytes, the
converter generated for `T` returns; it returns `CKR_ATTRIBUTE_VALUE_INVALID`
exactly when `ulValueLen` differs from `sizeof(T)`, and then leaves `*x`
unchanged; otherwise it returns `CKR_OK` and `*x` is the value of type `T`
stored in `pValue`. -/
theorem generic_convert_spec {T : Type} (ct : CObjType T) (attr : CK_ATTRIBUTE) (x : T)
    (hread : attr.ulValueLen = ct.sizeof →
      ∃ buf, attr.pValue = some buf ∧ ct.sizeof ≤ buf.length) :
    ∃ rv y, generic_convert ct attr x = some (rv, y) ∧
      (rv = CKR_ATTRIBUTE_VALUE_INVALID ↔ attr.ulValueLen ≠ ct.sizeof) ∧
      (attr.ulValueLen ≠ ct.sizeof → y = x) ∧
      (attr.ulValueLen = ct.sizeof →
        rv = CKR_OK ∧ ∀ buf, attr.pValue = some buf → y = ct.load (buf.take ct.sizeof)) := by
  by_cases hlen : attr.ulValueLen = ct.sizeof
  · obtain ⟨buf, hp, hb⟩ := hread hlen
    refine ⟨CKR_OK, ct.load (buf.take ct.sizeof), ?_, ?_, ?_, ?_⟩
    · simp [generic_convert, hlen, deref, hp, hb]
    · simp [hlen, CKR_OK, CKR_ATTRIBUTE_VALUE_INVALID]
    · intro h; exact absurd hlen h
    · intro _
      refine ⟨rfl, ?_⟩
      intro buf2 hp2
      rw [hp] at hp2
      rw [Option.some.inj hp2]
  · refine ⟨CKR_ATTRIBUTE_VALUE_INVALID, x, ?_, ?_, ?_, ?_⟩
    · simp [generic_convert, hlen]
    · simp [hlen]
    · intro _; rfl
    · intro h; exact absurd h hlen

/-- Witness of C9 (amended): `generic_CK_ULONG` on an attribute of eight bytes
holding 3, with the old content 7. -/
theorem generic_convert_spec_witness :
    ∃ rv y, generic_convert ck_ulong_type ⟨CKA_CLASS, some [3, 0, 0, 0, 0, 0, 0, 0], 8⟩ 7
        = some (rv, y) ∧
      (rv = CKR_ATTRIBUTE_VALUE_INVALID ↔
        (⟨CKA_CLASS, some [3, 0, 0, 0, 0, 0, 0, 0], 8⟩ : CK_ATTRIBUTE).ulValueLen
          ≠ ck_ulong_type.sizeof) ∧
      ((⟨CKA_CLASS, some [3, 0, 0, 0, 0, 0, 0, 0], 8⟩ : CK_ATTRIBUTE).ulValueLen
          ≠ ck_ulong_type.sizeof → y = 7) ∧
      ((⟨CKA_CLASS, some [3, 0, 0, 0, 0, 0, 0, 0], 8⟩ : CK_ATTRIBUTE).ulValueLen
          = ck_ulong_type.sizeof →
        rv = CKR_OK ∧ ∀ buf,
          (⟨CKA_CLASS, some [3, 0, 0, 0, 0, 0, 0, 0], 8⟩ : CK_ATTRIBUTE).pValue = some buf →
            y = ck_ulong_type.load (buf.take ck_ulong_type.sizeof)) :=
  generic_convert_spec ck_ulong_type ⟨CKA_CLASS, some [3, 0, 0, 0, 0, 0, 0, 0], 8⟩ 7
    (fun _ => ⟨[3, 0, 0, 0, 0, 0, 0, 0], rfl, by decide⟩)

/-! ## Properties of `utils_new_random_object_auth` -/

/-- C6: `utils_new_random_object_auth(a, b)` is
`utils_setup_new_object_auth(NULL, a, b)`: the callee is entered with an absent
PIN and the two handles in the same order, and its status and effects are
returned unchanged; the result is fixed by what the callee does for an absent
PIN, whatever it does for any PIN. -/
theorem utils_new_random_object_auth_eq {ω : Type} (setup : SetupNewObjectAuth ω)
    (a b : Nat) (w : ω) :
    utils_new_random_object_auth setup a b w = setup none a b w ∧
    (utils_new_random_object_auth setup a b w).1 = (setup none a b w).1 ∧
    (∀ setup2 : SetupNewObjectAuth ω, (∀ x y v, setup2 none x y v = setup none x y v) →
      utils_new_random_object_auth setup2 a b w = utils_new_random_object_auth setup a b w) := by
  refine ⟨rfl, rfl, ?_⟩
  intro setup2 h
  exact h a b w

/-- Witness of C6: with the sample callee, handles 10 and 20 and a world in
which 5 RNG draws were made, the wrapper gives what the callee gives for an
absent PIN. -/
theorem utils_new_random_object_auth_eq_witness :
    utils_new_random_object_auth sample_setup 10 20 (5, [])
      = (CKR_OK, (7, [(10, 5), (20, 6)])) :=
  (utils_new_random_object_auth_eq sample_setup 10 20 (5, [])).1.trans rfl

/-! ## Properties of the attribute handler dispatch -/

theorem attr_lookup_eq_none {σ : Type} (handlers : List (attr_handler σ)) (t : Nat)
    (h : ∀ row ∈ handlers, row.value ≠ t) : attr_lookup handlers t = none := by
  unfold attr_lookup
  rw [List.find?_eq_none]
  intro row hrow
  simpa using h row hrow

/-- C1: when the type of the first entry of a non-empty array matches no row
of the table, `utils_handle_attrs` returns `CKR_ATTRIBUTE_TYPE_INVALID` and
invokes no handler: the number of invocations is 0 and the user data is
untouched. -/
theorem utils_handle_attrs_first_unmatched {σ : Type} (handlers : List (attr_handler σ))
    (a : CK_ATTRIBUTE) (rest : List CK_ATTRIBUTE) (udata : σ)
    (h : ∀ row ∈ handlers, row.value ≠ a.type) :
    (utils_handle_attrs handlers (a :: rest) udata).rv = CKR_ATTRIBUTE_TYPE_INVALID ∧
    (utils_handle_attrs handlers (a :: rest) udata).calls = [] ∧
    (utils_handle_attrs handlers (a :: rest) udata).calls.length = 0 ∧
    (utils_handle_attrs handlers (a :: rest) udata).udata = udata := by
  have hl := attr_lookup_eq_none handlers a.type h
  simp [utils_handle_attrs, handle_attrs_loop, hl]

/-- Witness of C1: a `CKA_CLASS` entry dispatched against a table whose only
row is for `CKA_VALUE`. -/
theorem utils_handle_attrs_first_unmatched_witness :
    (∀ row ∈ sample_table_value_fails, row.value ≠ CKA_CLASS) ∧
    (utils_handle_attrs sample_table_value_fails sample_template_class_value 0).rv
      = CKR_ATTRIBUTE_TYPE_INVALID ∧
    (utils_handle_attrs sample_table_value_fails sample_template_class_value 0).calls = [] :=
  have h : ∀ row ∈ sample_table_value_fails, row.value ≠ CKA_CLASS := by
    intro row hrow
    simp [sample_table_value_fails] at hrow
    subst hrow
    decide
  have t := utils_handle_attrs_first_unmatched sample_table_value_fails
    ⟨CKA_CLASS, some [4, 0, 0, 0, 0, 0, 0, 0], 8⟩ [⟨CKA_VALUE, none, 0⟩] 0 h
  ⟨h, t.1, t.2.1⟩

theorem attr_copy_entries_sentinels (heap : Heap) (attrs : List CK_ATTRIBUTE)
    (h : ∀ a ∈ attrs, is_sentinel a) : attr_copy_entries heap attrs = (some attrs, heap) := by
  induction attrs with
  | nil => rfl
  | cons a rest ih =>
    have ha : is_sentinel a := h a (List.mem_cons_self _ _)
    have hrest := ih (fun b hb => h b (List.mem_cons_of_mem _ hb))
    have hcopy : attr_copy_entry heap a = (some a, heap) := by
      simp [attr_copy_entry, ha.2]
    simp [attr_copy_entries, hcopy, hrest]

/-- C4: for an array made only of sentinel entries (length 0, value absent),
`utils_attr_deep_copy` returns `CKR_OK` whatever the allocator would do; the
copy has the same number of entries, each with the same type, length 0 and an
absent value; and the allocator is untouched, so no value buffer is
created. -/
theorem utils_attr_deep_copy_sentinels (heap : Heap) (attrs : List CK_ATTRIBUTE)
    (h : ∀ a ∈ attrs, is_sentinel a) :
    ∃ (copy : List CK_ATTRIBUTE) (heap1 : Heap),
      utils_attr_deep_copy heap attrs = (CKR_OK, some copy, heap1) ∧
      copy.length = attrs.length ∧
      (∀ (i : Nat) (a : CK_ATTRIBUTE), attrs[i]? = some a →
        ∃ b : CK_ATTRIBUTE,
          copy[i]? = some b ∧ b.type = a.type ∧ b.ulValueLen = 0 ∧ b.pValue = none) ∧
      heap1 = heap ∧ heap1.allocs = heap.allocs := by
  refine ⟨attrs, heap, ?_, rfl, ?_, rfl, rfl⟩
  · simp [utils_attr_deep_copy, attr_copy_entries_sentinels heap attrs h]
  · intro i a hia
    have hmem : a ∈ attrs := List.getElem?_mem hia
    exact ⟨a, hia, rfl, (h a hmem).1, (h a hmem).2⟩

/-- Witness of C4: two sentinel entries copied with an allocator that would
refuse every request. -/
theorem utils_attr_deep_copy_sentinels_witness :
    (∀ a ∈ sample_sentinels, is_sentinel a) ∧
    ∃ (copy : List CK_ATTRIBUTE) (heap1 : Heap),
      utils_attr_deep_copy ⟨0, 0, 0⟩ sample_sentinels = (CKR_OK, some copy, heap1) ∧
      copy.length = sample_sentinels.length ∧
      (∀ (i : Nat) (a : CK_ATTRIBUTE), sample_sentinels[i]? = some a →
        ∃ b : CK_ATTRIBUTE,
          copy[i]? = some b ∧ b.type = a.type ∧ b.ulValueLen = 0 ∧ b.pValue = none) ∧
      heap1 = ⟨0, 0, 0⟩ ∧ heap1.allocs = 0 :=
  have h : ∀ a ∈ sample_sentinels, is_sentinel a := by
    intro a ha
    simp only [sample_sentinels, List.mem_cons, List.mem_singleton, List.mem_nil_iff,
      or_false] at ha
    rcases ha with ha | ha <;> subst ha <;> exact ⟨rfl, rfl⟩
  ⟨h, utils_attr_deep_copy_sentinels ⟨0, 0, 0⟩ sample_sentinels h⟩

end Tpm2Pkcs11
